import Mathlib

/-!
Verification of the glyph compositor in src/main.rs.

The compositor (lines 183-249 of main.rs) measures a canvas from shaped
glyph advances and rasterized glyph bitmaps, allocates a zero-filled RGBA
buffer, and blits every bitmap into it with per-channel saturating
accumulation and a per-glyph tint-mask cycle.

Modelling notes.
* Machine integers: `usize` values are modelled as `Nat`; `i32` bearings as
  `Int`; `u8` channel values as `Nat` kept below 256 by the saturating
  operations themselves (`u8::saturating_add a b = min (a + b) 255` holds
  for all byte inputs).
* `f32` advances are modelled as exact rationals.  The two float-to-integer
  conversions the code performs are translated exactly: `as usize` on an
  `f32` truncates toward zero and clamps negatives to zero, and
  `f32::round` rounds half away from zero.
* Rust panics (out-of-range slice indexing) are modelled by
  `Except.error`; all in-range behaviour is in the `Except.ok` branch.
* The per-glyph outcome of shaping plus rasterization is a list of pairs
  `(Glyph, Option GlyphImage)`: the code pushes every shaped glyph into
  `glyphs` and only the successfully rasterized images into
  `glyph_images` via `filter_map` (lines 111-177), which is exactly
  `List.map Prod.fst` and `List.filterMap Prod.snd` of that pair list.
-/

/-- Placement metadata of a rasterized glyph bitmap (zeno Placement):
left/top bearing (i32, may be negative) and pixel dimensions (u32). -/
structure Placement where
  left : Int
  top : Int
  width : Nat
  height : Nat
deriving DecidableEq

/-- A rasterized glyph image (swash Image): placement plus row-major
per-pixel alpha coverage bytes. -/
structure GlyphImage where
  placement : Placement
  data : List Nat
deriving DecidableEq

/-- The shaped-glyph data the compositor consumes: the advance in
fractional pixels (an f32 in the source, modelled as an exact rational). -/
structure Glyph where
  advance : Rat
deriving DecidableEq

/-- One RGBA pixel of the canvas, `[u8; 4]` in the source. -/
structure Pixel where
  r : Nat
  g : Nat
  b : Nat
  a : Nat
deriving DecidableEq

/-- `u8::saturating_add` on channel values. -/
def saturating_add (a b : Nat) : Nat := min (a + b) 255

/-- `usize::saturating_add_signed`: add a signed offset to an unsigned
value, clamping at zero. -/
def saturating_add_signed (n : Nat) (i : Int) : Nat := ((n : Int) + i).toNat

/-- Rust `as usize` on an f32 value (line 183): truncate toward zero,
negative values saturate to zero. -/
def ratToUsize (q : Rat) : Nat := (⌊q⌋).toNat

/-- `f32::round`: round half away from zero. -/
def rustRound (q : Rat) : Int := if 0 ≤ q then ⌊q + 1 / 2⌋ else ⌈q - 1 / 2⌉

/-- `glyph.advance.round() as usize` (line 247). -/
def ratRoundToUsize (q : Rat) : Nat := (rustRound q).toNat

/-- Line 183: the total canvas width, the f32 sum of all glyph advances
cast to usize. -/
def totalWidth (glyphs : List Glyph) : Nat :=
  ratToUsize ((glyphs.map (fun g => g.advance)).sum)

/-- Lines 185-188: the baseline height, the maximum bitmap height over all
glyph images (`unwrap_or_default`, so 0 when there are none). -/
def baselineHeight (imgs : List GlyphImage) : Nat :=
  (imgs.map (fun i => i.placement.height)).foldr max 0

/-- Lines 190-196: the total canvas height, the maximum over all glyph
images of height plus the saturating vertical offset (0 when none). -/
def totalHeight (baseline : Nat) (imgs : List GlyphImage) : Nat :=
  (imgs.map (fun i =>
    i.placement.height + saturating_add_signed baseline (-i.placement.top))).foldr max 0

/-- Lines 222-242: update one destination pixel holding coverage byte v
under tint mask col: saturating accumulation into all four channels,
after which each of r, g, b whose mask bit is set is restored to its
pre-accumulation value. -/
def blitPixel (col v : Nat) (p : Pixel) : Pixel :=
  let q : Pixel :=
    ⟨saturating_add v p.r, saturating_add v p.g, saturating_add v p.b, saturating_add v p.a⟩
  let q1 := if col &&& 1 > 0 then { q with r := p.r } else q
  let q2 := if col &&& 2 > 0 then { q1 with g := p.g } else q1
  if col &&& 4 > 0 then { q2 with b := p.b } else q2

/-- Lines 216-230 for one source pixel (y, x): compute the destination
buffer index (the row is clamped to the last canvas row, the column is
not clamped), read the destination pixel and the coverage byte, and store
the blended pixel.  An out-of-range read models the Rust panic. -/
def blitAt (tw th : Nat) (img : GlyphImage) (col pen : Nat) (x_off : Int)
    (y_off y x : Nat) (buf : List Pixel) : Except String (List Pixel) :=
  let x_buf := saturating_add_signed x x_off + pen
  let y_buf := min (y + y_off) (th - 1)
  let buffer_idx := y_buf * tw + x_buf
  let data_idx := y * img.placement.width + x
  match buf.get? buffer_idx, img.data.get? data_idx with
  | some p, some v => Except.ok (buf.set buffer_idx (blitPixel col v p))
  | none, _ => Except.error "index out of bounds"
  | some _, none => Except.error "glyph data index out of bounds"

/-- Lines 211-244: blit one glyph image at the current pen offset, rows
0 .. min(height, total_height), columns 0 .. width. -/
def blitImage (tw th baseline : Nat) (img : GlyphImage) (col pen : Nat)
    (buf : List Pixel) : Except String (List Pixel) :=
  let x_off : Int := img.placement.left
  let y_off := saturating_add_signed baseline (-img.placement.top)
  (List.range (min img.placement.height th)).foldlM
    (fun b y => (List.range img.placement.width).foldlM
      (fun c x => blitAt tw th img col pen x_off y_off y x c) b) buf

/-- The mutable state of the main loop (lines 201-249): the canvas buffer,
the tint counter col, the running pen offset glyph_advance, and the glyph
indices reported by the height-0 diagnostic println. -/
structure CompState where
  buffer : List Pixel
  col : Nat
  glyph_advance : Nat
  messages : List Nat
deriving DecidableEq

/-- Lines 204-249, one loop iteration for glyph index gi: a height-0 image
is only reported, any other image is blit with the current tint counter
and pen; afterwards the pen advances by the rounded advance and the tint
counter steps mod 8. -/
def compStep (tw th baseline : Nat) (st : CompState) (gi : Nat)
    (img : GlyphImage) (g : Glyph) : Except String CompState :=
  if img.placement.height = 0 then
    Except.ok ⟨st.buffer, (st.col + 1) % 8,
      st.glyph_advance + ratRoundToUsize g.advance, st.messages ++ [gi]⟩
  else
    match blitImage tw th baseline img st.col st.glyph_advance st.buffer with
    | Except.ok buf =>
        Except.ok ⟨buf, (st.col + 1) % 8,
          st.glyph_advance + ratRoundToUsize g.advance, st.messages⟩
    | Except.error e => Except.error e

/-- Line 204: the loop over `glyph_images.iter().zip(glyphs.iter()).enumerate()`. -/
def compLoop (tw th baseline : Nat) :
    Nat → List (GlyphImage × Glyph) → CompState → Except String CompState
  | _, [], st => Except.ok st
  | i, (img, g) :: rest, st =>
    match compStep tw th baseline st i img g with
    | Except.ok st2 => compLoop tw th baseline (i + 1) rest st2
    | Except.error e => Except.error e

/-- Lines 183-249 end to end: from the per-glyph shaping results (each
glyph paired with its optional rasterized bitmap), measure the canvas,
allocate it zero-filled, and run the blit loop.  Returns
(width, baseline, height, final state), or the first panic. -/
def renderRun (pairs : List (Glyph × Option GlyphImage)) :
    Except String (Nat × Nat × Nat × CompState) :=
  let glyphs := pairs.map Prod.fst
  let imgs := pairs.filterMap Prod.snd
  let tw := totalWidth glyphs
  let baseline := baselineHeight imgs
  let th := totalHeight baseline imgs
  match compLoop tw th baseline 0 (imgs.zip glyphs)
      ⟨List.replicate (tw * th) ⟨0, 0, 0, 0⟩, 0, 0, []⟩ with
  | Except.ok st => Except.ok (tw, baseline, th, st)
  | Except.error e => Except.error e

/-- Dimensions (width, baseline, height) of a successful run. -/
def runDims (r : Except String (Nat × Nat × Nat × CompState)) :
    Option (Nat × Nat × Nat) :=
  match r with
  | Except.ok (tw, bl, th, _) => some (tw, bl, th)
  | Except.error _ => none

/-- Canvas pixel i of a successful run. -/
def runBufferAt (r : Except String (Nat × Nat × Nat × CompState)) (i : Nat) :
    Option Pixel :=
  match r with
  | Except.ok (_, _, _, st) => st.buffer.get? i
  | Except.error _ => none

/-- Final pen offset of a successful run. -/
def runPen (r : Except String (Nat × Nat × Nat × CompState)) : Option Nat :=
  match r with
  | Except.ok (_, _, _, st) => some st.glyph_advance
  | Except.error _ => none

/-- Reported height-0 glyph indices of a successful run. -/
def runMessages (r : Except String (Nat × Nat × Nat × CompState)) :
    Option (List Nat) :=
  match r with
  | Except.ok (_, _, _, st) => some st.messages
  | Except.error _ => none

/-- The error of a failed run (a Rust panic), if any. -/
def runError (r : Except String (Nat × Nat × Nat × CompState)) : Option String :=
  match r with
  | Except.ok _ => none
  | Except.error e => some e

/-- C1 counterexample: a single glyph with advance 1 but a 2-pixel-wide
bitmap.  The canvas is 1 x 1; the blit of source column x = 1 computes the
unclamped column index 1 and reads img_buffer[1] in a buffer of length 1,
an out-of-range access (a Rust panic), so the claim that all coordinate
arithmetic is defensively clamped is false. -/
theorem c1_oob_counterexample :
    renderRun [(⟨1⟩, some ⟨⟨0, 1, 2, 1⟩, [10, 20]⟩)] =
      Except.error "index out of bounds" := by
  with_unfolding_all rfl

/-- C1 amended: only the destination row is defensively clamped (to at
most height - 1); the destination column is not clamped, so a write stays
inside the allocated canvas buffer exactly when the clamped source column
plus left bearing plus pen offset stays below the canvas width.  Under
that extra bound (and an in-range coverage byte) every blit succeeds and
preserves the buffer length, for any row y. -/
theorem c1_row_clamped_column_unchecked (tw th : Nat) (img : GlyphImage)
    (col pen : Nat) (x_off : Int) (y_off y x : Nat) (buf : List Pixel)
    (hth : 1 ≤ th) (hlen : buf.length = tw * th)
    (hx : saturating_add_signed x x_off + pen < tw)
    (hd : y * img.placement.width + x < img.data.length) :
    min (y + y_off) (th - 1) ≤ th - 1 ∧
    ∃ buf2, blitAt tw th img col pen x_off y_off y x buf = Except.ok buf2 ∧
      buf2.length = buf.length := by
  refine ⟨min_le_right _ _, ?_⟩
  have hidx : min (y + y_off) (th - 1) * tw +
      (saturating_add_signed x x_off + pen) < buf.length := by
    have h2 : min (y + y_off) (th - 1) * tw ≤ (th - 1) * tw :=
      Nat.mul_le_mul_right _ (min_le_right _ _)
    have h3 : (th - 1) * tw + tw = th * tw := by
      cases th with
      | zero => omega
      | succ t => simp [Nat.succ_sub_one, Nat.succ_mul]
    rw [Nat.mul_comm tw th] at hlen
    omega
  obtain ⟨p, hp⟩ : ∃ p, buf.get? (min (y + y_off) (th - 1) * tw +
      (saturating_add_signed x x_off + pen)) = some p :=
    ⟨_, List.get?_eq_get hidx⟩
  obtain ⟨v, hv⟩ : ∃ v, img.data.get? (y * img.placement.width + x) = some v :=
    ⟨_, List.get?_eq_get hd⟩
  refine ⟨buf.set (min (y + y_off) (th - 1) * tw +
      (saturating_add_signed x x_off + pen)) (blitPixel col v p), ?_, ?_⟩
  · simp only [blitAt]
    rw [hp, hv]
  · exact List.length_set ..

/-- Witness for c1_row_clamped_column_unchecked. -/
theorem c1_row_clamped_column_unchecked_witness :
    min (0 + 0) (1 - 1) ≤ 1 - 1 ∧
    ∃ buf2, blitAt 2 1 ⟨⟨0, 1, 1, 1⟩, [10]⟩ 0 0 0 0 0 0
        [⟨0, 0, 0, 0⟩, ⟨0, 0, 0, 0⟩] = Except.ok buf2 ∧
      buf2.length = ([⟨0, 0, 0, 0⟩, ⟨0, 0, 0, 0⟩] : List Pixel).length :=
  c1_row_clamped_column_unchecked 2 1 ⟨⟨0, 1, 1, 1⟩, [10]⟩ 0 0 0 0 0 0
    [⟨0, 0, 0, 0⟩, ⟨0, 0, 0, 0⟩] (by decide) (by decide) (by decide) (by decide)

/-- When every glyph has a bitmap, entry i of the zipped blit list is
glyph i paired with its own bitmap. -/
theorem zip_of_all_some (pairs : List (Glyph × Option GlyphImage)) :
    ∀ (i : Nat) (img : GlyphImage) (g : Glyph),
      (∀ p ∈ pairs, p.2.isSome = true) →
      ((pairs.filterMap Prod.snd).zip (pairs.map Prod.fst)).get? i =
        some (img, g) →
      pairs.get? i = some (g, some img) := by
  induction pairs with
  | nil => intro i img g _ hz; simp at hz
  | cons p rest ih =>
    intro i img g hall hz
    obtain ⟨b, hb⟩ := Option.isSome_iff_exists.mp (hall p (List.mem_cons_self _ _))
    cases i with
    | zero =>
      simp only [List.filterMap_cons, hb, List.map_cons, List.zip_cons_cons,
        List.get?_cons_zero, Option.some.injEq, Prod.mk.injEq] at hz ⊢
      rcases hz with ⟨h1, h2⟩
      rw [← h1, ← h2, ← hb]
    | succ n =>
      simp only [List.filterMap_cons, hb, List.map_cons, List.zip_cons_cons,
        List.get?_cons_succ] at hz ⊢
      exact ih n img g (fun q hq => hall q (List.mem_cons_of_mem _ hq)) hz

/-- Input for the C2 counterexample: glyph 0 (advance 5) rasterizes to no
bitmap, glyph 1 (advance 7) to a 1 x 1 bitmap of coverage 9. -/
def c2input : List (Glyph × Option GlyphImage) :=
  [(⟨5⟩, none), (⟨7⟩, some ⟨⟨0, 1, 1, 1⟩, [9]⟩)]

/-- C2 counterexample: the claim requires a bitmap-less glyph to be
reported and to still shift the following glyphs by its advance.  In the
code, filter_map drops glyph 0 before the zip, so the run reports nothing
(messages = []) and paints glyph 1's bitmap at column 0 instead of
column 5 (= glyph 0's rounded advance): pixel 0 is painted and pixel 5 is
untouched. -/
theorem c2_missing_bitmap_counterexample :
    runMessages (renderRun c2input) = some [] ∧
    runBufferAt (renderRun c2input) 0 = some ⟨9, 9, 9, 9⟩ ∧
    runBufferAt (renderRun c2input) 5 = some ⟨0, 0, 0, 0⟩ := by
  refine ⟨?_, ?_, ?_⟩ <;> with_unfolding_all rfl

/-- C2 amended: provided every glyph's rasterization yields a bitmap, the
i-th blit-loop entry is glyph i with its own bitmap, and a glyph whose
bitmap has zero height writes no pixel (the buffer is returned unchanged),
still advances the pen by that same glyph's rounded pixel advance, and is
reported in the diagnostic list.  (When a rasterization yields no bitmap
the pairing shifts: see the counterexample.) -/
theorem c2_zero_height_skip (pairs : List (Glyph × Option GlyphImage))
    (i : Nat) (img : GlyphImage) (g : Glyph) (tw th baseline : Nat)
    (st : CompState)
    (hall : ∀ p ∈ pairs, p.2.isSome = true)
    (hz : ((pairs.filterMap Prod.snd).zip (pairs.map Prod.fst)).get? i =
      some (img, g)) :
    pairs.get? i = some (g, some img) ∧
    (img.placement.height = 0 →
      compStep tw th baseline st i img g =
        Except.ok ⟨st.buffer, (st.col + 1) % 8,
          st.glyph_advance + ratRoundToUsize g.advance, st.messages ++ [i]⟩) := by
  refine ⟨zip_of_all_some pairs i img g hall hz, fun hzero => ?_⟩
  simp [compStep, hzero]

/-- Witness for c2_zero_height_skip on a single zero-height glyph. -/
theorem c2_zero_height_skip_witness :
    [((⟨2⟩ : Glyph), some (⟨⟨0, 0, 0, 0⟩, []⟩ : GlyphImage))].get? 0 =
      some (⟨2⟩, some ⟨⟨0, 0, 0, 0⟩, []⟩) ∧
    compStep 5 5 0 ⟨[], 0, 0, []⟩ 0 ⟨⟨0, 0, 0, 0⟩, []⟩ ⟨2⟩ =
      Except.ok ⟨[], (0 + 1) % 8, 0 + ratRoundToUsize (Glyph.advance ⟨2⟩),
        [] ++ [0]⟩ :=
  ⟨(c2_zero_height_skip [(⟨2⟩, some ⟨⟨0, 0, 0, 0⟩, []⟩)] 0 ⟨⟨0, 0, 0, 0⟩, []⟩
      ⟨2⟩ 5 5 0 ⟨[], 0, 0, []⟩ (by decide) (by decide)).1,
   (c2_zero_height_skip [(⟨2⟩, some ⟨⟨0, 0, 0, 0⟩, []⟩)] 0 ⟨⟨0, 0, 0, 0⟩, []⟩
      ⟨2⟩ 5 5 0 ⟨[], 0, 0, []⟩ (by decide) (by decide)).2 (by decide)⟩

/-- Input for the C7 end-to-end scenario: two glyphs of advances 10 and 12
pixels, bitmap heights 8 and 6, top bearings 8 and 6, zero left bearings
(bitmap widths 1, coverage 100 and 50). -/
def c7input : List (Glyph × Option GlyphImage) :=
  [(⟨10⟩, some ⟨⟨0, 8, 1, 8⟩, List.replicate 8 100⟩),
   (⟨12⟩, some ⟨⟨0, 6, 1, 6⟩, List.replicate 6 50⟩)]

/-- C7: the scenario yields canvas width 22, baseline 8, canvas height 8;
the first glyph's bitmap lands at destination origin (0, 0) (pixel (0,0)
is painted) and the second glyph's at (10, 2) (pixel (10, 2) is painted
while the pixels at (10, 0), (10, 1) and (9, 2) are untouched). -/
theorem c7_scenario :
    runDims (renderRun c7input) = some (22, 8, 8) ∧
    runBufferAt (renderRun c7input) 0 = some ⟨100, 100, 100, 100⟩ ∧
    runBufferAt (renderRun c7input) (2 * 22 + 10) = some ⟨0, 50, 50, 50⟩ ∧
    runBufferAt (renderRun c7input) 10 = some ⟨0, 0, 0, 0⟩ ∧
    runBufferAt (renderRun c7input) (1 * 22 + 10) = some ⟨0, 0, 0, 0⟩ ∧
    runBufferAt (renderRun c7input) (2 * 22 + 9) = some ⟨0, 0, 0, 0⟩ := by
  refine ⟨?_, ?_, ?_, ?_, ?_, ?_⟩ <;> with_unfolding_all rfl

/-- The height formula as the spec states it for C4: the maximum over
bitmaps of height plus max(0, baseline - top_bearing), computed in ℤ and
clamped at zero. -/
def specHeight (baseline : Nat) (imgs : List GlyphImage) : Nat :=
  (imgs.map (fun i =>
    i.placement.height + (max 0 ((baseline : Int) - i.placement.top)).toNat)).foldr max 0

/-- C4: the canvas pixel height equals the maximum over all bitmaps of
(bitmap height + max(0, baseline - top_bearing)); the vertical offset is
clamped at zero by the saturating addition of the negated bearing, also
when the bearing is negative or exceeds the baseline; the height is zero
when there are no bitmaps. -/
theorem c4_total_height (baseline : Nat) (imgs : List GlyphImage) :
    totalHeight baseline imgs = specHeight baseline imgs ∧
    totalHeight baseline [] = 0 := by
  constructor
  · induction imgs with
    | nil => rfl
    | cons i rest ih =>
      simp only [totalHeight, specHeight, List.map_cons, List.foldr_cons] at ih ⊢
      rw [ih]
      have hoff : saturating_add_signed baseline (-i.placement.top) =
          (max 0 ((baseline : Int) - i.placement.top)).toNat := by
        unfold saturating_add_signed
        omega
      rw [hoff]
  · rfl

/-- C5: the baseline equals the maximum bitmap height over the run (an
upper bound that is attained whenever the run is nonempty), and is zero
when there are no bitmaps. -/
theorem c5_baseline_max (imgs : List GlyphImage) :
    baselineHeight ([] : List GlyphImage) = 0 ∧
    (∀ i ∈ imgs, i.placement.height ≤ baselineHeight imgs) ∧
    (imgs ≠ [] → ∃ i ∈ imgs, baselineHeight imgs = i.placement.height) := by
  refine ⟨rfl, ?_, ?_⟩
  · induction imgs with
    | nil => intro i hi; cases hi
    | cons j rest ih =>
      intro i hi
      simp only [baselineHeight, List.map_cons, List.foldr_cons]
      rcases List.mem_cons.mp hi with h | h
      · subst h; exact le_max_left _ _
      · exact le_trans (ih i h) (le_max_right _ _)
  · induction imgs with
    | nil => intro h; exact absurd rfl h
    | cons j rest ih =>
      intro _
      cases rest with
      | nil =>
        refine ⟨j, List.mem_cons_self _ _, ?_⟩
        simp [baselineHeight]
      | cons k tail =>
        obtain ⟨i, hi, hei⟩ := ih (by simp)
        simp only [baselineHeight, List.map_cons, List.foldr_cons] at hei ⊢
        rcases le_total j.placement.height
            ((List.map (fun i => i.placement.height) (k :: tail)).foldr max 0) with h | h
        · refine ⟨i, List.mem_cons_of_mem _ hi, ?_⟩
          simp only [List.map_cons, List.foldr_cons] at h ⊢
          rw [max_eq_right h]
          exact hei
        · refine ⟨j, List.mem_cons_self _ _, ?_⟩
          simp only [List.map_cons, List.foldr_cons] at h ⊢
          rw [max_eq_left h]

/-- Witness for c5_baseline_max on a one-element run. -/
theorem c5_baseline_max_witness :
    ∃ i ∈ [(⟨⟨0, 7, 1, 7⟩, []⟩ : GlyphImage)],
      baselineHeight [(⟨⟨0, 7, 1, 7⟩, []⟩ : GlyphImage)] = i.placement.height :=
  (c5_baseline_max [⟨⟨0, 7, 1, 7⟩, []⟩]).2.2 (by decide)

/-- Input for the C3 counterexample: a single glyph of advance one half
pixel with a degenerate (zero-size) bitmap. -/
def c3input : List (Glyph × Option GlyphImage) :=
  [(⟨(1 : Rat)/2⟩, some ⟨⟨0, 0, 0, 0⟩, []⟩)]

/-- C3 counterexample: the claim says one consistent per-glyph rounding
policy produces both the canvas width and the pen offset.  On a single
glyph of advance 0.5 the canvas width is 0 (line 183 truncates the f32
sum) while the pen offset after that glyph is 1 (line 247 rounds the
advance): under the truncating policy the pen would be 0, under the
rounding policy the width would be 1, so no single policy explains both. -/
theorem c3_policy_counterexample :
    runDims (renderRun c3input) = some (0, 0, 0) ∧
    runPen (renderRun c3input) = some 1 ∧
    ratToUsize ((1 : Rat)/2) = 0 ∧
    ratRoundToUsize ((1 : Rat)/2) = 1 := by
  refine ⟨?_, ?_, ?_, ?_⟩ <;> with_unfolding_all rfl

/-- C3 amended: the code truncates the exact sum of the fractional
advances for the canvas width but accumulates per-glyph
rounded-half-away-from-zero advances for the pen offset; the two policies
agree whenever every advance is a whole (natural) number of pixels, and
differ on fractional advances (see the counterexample). -/
theorem c3_integer_advances_agree (glyphs : List Glyph)
    (h : ∀ g ∈ glyphs, ∃ n : Nat, g.advance = (n : Rat)) :
    totalWidth glyphs = (glyphs.map (fun g => ratRoundToUsize g.advance)).sum := by
  have hround : ∀ n : Nat, ratRoundToUsize ((n : Nat) : Rat) = n := by
    intro n
    unfold ratRoundToUsize rustRound
    rw [if_pos (by positivity)]
    have hf : ⌊((n : Rat) + 1 / 2)⌋ = (n : Int) := by
      rw [Int.floor_eq_iff]
      constructor
      · push_cast
        linarith
      · push_cast
        linarith
    rw [hf]
    simp
  have key : ∀ gs : List Glyph, (∀ g ∈ gs, ∃ n : Nat, g.advance = (n : Rat)) →
      ∃ m : Nat, (gs.map (fun g => g.advance)).sum = (m : Rat) ∧
        (gs.map (fun g => ratRoundToUsize g.advance)).sum = m := by
    intro gs
    induction gs with
    | nil =>
      intro _
      exact ⟨0, by simp, by simp⟩
    | cons g rest ih =>
      intro hgs
      obtain ⟨n, hn⟩ := hgs g (List.mem_cons_self _ _)
      obtain ⟨m, hm1, hm2⟩ := ih (fun q hq => hgs q (List.mem_cons_of_mem _ hq))
      refine ⟨n + m, ?_, ?_⟩
      · simp only [List.map_cons, List.sum_cons, hn, hm1]
        push_cast
        ring
      · simp only [List.map_cons, List.sum_cons, hm2, hn]
        rw [hround]
  obtain ⟨m, hm1, hm2⟩ := key glyphs h
  unfold totalWidth ratToUsize
  rw [hm1, Int.floor_natCast, Int.toNat_natCast]
  exact hm2.symm

/-- Witness for c3_integer_advances_agree on whole-pixel advances 3 and 4. -/
theorem c3_integer_advances_agree_witness :
    totalWidth [⟨3⟩, ⟨4⟩] =
      (([⟨3⟩, ⟨4⟩] : List Glyph).map (fun g => ratRoundToUsize g.advance)).sum :=
  c3_integer_advances_agree [⟨3⟩, ⟨4⟩] (by
    intro g hg
    rcases List.mem_cons.mp hg with h | h
    · exact ⟨3, by rw [h]; norm_num⟩
    · rcases List.mem_cons.mp h with h2 | h2
      · exact ⟨4, by rw [h2]; norm_num⟩
      · cases h2)

/-- Channel b of a pixel, the code's array index 0, 1, 2, 3. -/
def channel (b : Nat) (p : Pixel) : Nat :=
  if b = 0 then p.r else if b = 1 then p.g else if b = 2 then p.b else p.a

/-- Modelled from the spec for C8: one loop iteration in which the tint
mask is written directly as the glyph index i mod 8 instead of being read
from the threaded col counter. -/
def specStep (tw th baseline i : Nat) (img : GlyphImage) (g : Glyph)
    (st : CompState) : Except String CompState :=
  if img.placement.height = 0 then
    Except.ok ⟨st.buffer, (i + 1) % 8,
      st.glyph_advance + ratRoundToUsize g.advance, st.messages ++ [i]⟩
  else
    match blitImage tw th baseline img (i % 8) st.glyph_advance st.buffer with
    | Except.ok buf =>
        Except.ok ⟨buf, (i + 1) % 8,
          st.glyph_advance + ratRoundToUsize g.advance, st.messages⟩
    | Except.error e => Except.error e

/-- Modelled from the spec for C8: the blit loop with the tint mask of the
glyph at index i spelled as i mod 8. -/
def specLoop (tw th baseline : Nat) :
    Nat → List (GlyphImage × Glyph) → CompState → Except String CompState
  | _, [], st => Except.ok st
  | i, (img, g) :: rest, st =>
    match specStep tw th baseline i img g st with
    | Except.ok st2 => specLoop tw th baseline (i + 1) rest st2
    | Except.error e => Except.error e

/-- C8: starting from any loop state whose tint counter equals the glyph
index mod 8 (as the run does: index 0, counter 0), the code's loop is the
loop that applies mask i mod 8 to the glyph at index i, counting every
glyph including skipped zero-height ones; and for each bit b in 0..2 set
in the mask, channel b of the destination pixel keeps its
pre-accumulation value. -/
theorem c8_tint_cycle (tw th baseline : Nat) (l : List (GlyphImage × Glyph))
    (i : Nat) (st : CompState) (hcol : st.col = i % 8) :
    compLoop tw th baseline i l st = specLoop tw th baseline i l st ∧
    (∀ b, b < 3 → ∀ mask v p, Nat.testBit mask b = true →
      channel b (blitPixel mask v p) = channel b p) := by
  have main : ∀ (l2 : List (GlyphImage × Glyph)) (j : Nat) (s : CompState),
      s.col = j % 8 →
      compLoop tw th baseline j l2 s = specLoop tw th baseline j l2 s := by
    intro l2
    induction l2 with
    | nil => intro j s _; rfl
    | cons e rest ih =>
      intro j s hc
      obtain ⟨img, g⟩ := e
      have hstep : compStep tw th baseline s j img g =
          specStep tw th baseline j img g s := by
        unfold compStep specStep
        rw [hc]
        have h8 : (j % 8 + 1) % 8 = (j + 1) % 8 := by omega
        rw [h8]
      simp only [compLoop, specLoop, hstep]
      cases hs : specStep tw th baseline j img g s with
      | ok st2 =>
        have hc2 : st2.col = (j + 1) % 8 := by
          unfold specStep at hs
          split at hs
          · injection hs with h
            rw [← h]
          · cases hb : blitImage tw th baseline img (j % 8) s.glyph_advance
                s.buffer with
            | ok buf =>
              simp only [hb] at hs
              injection hs with h
              rw [← h]
            | error e2 =>
              simp only [hb] at hs
              cases hs
        exact ih (j + 1) st2 hc2
      | error e2 => rfl
  refine ⟨main l i st hcol, ?_⟩
  intro b hb mask v p htb
  have hand : ∀ k : Nat, Nat.testBit mask k = true → mask &&& 2 ^ k = 2 ^ k := by
    intro k hk
    rw [Nat.and_two_pow, hk]
    simp
  interval_cases b
  · have h1 : mask &&& 1 > 0 := by
      have hk := hand 0 htb
      rw [pow_zero] at hk
      omega
    show (blitPixel mask v p).r = p.r
    simp only [blitPixel]
    split_ifs <;> rfl
  · have h2 : mask &&& 2 > 0 := by
      have hk := hand 1 htb
      rw [pow_one] at hk
      omega
    show (blitPixel mask v p).g = p.g
    simp only [blitPixel]
    split_ifs <;> rfl
  · have h4 : mask &&& 4 > 0 := by
      have hk := hand 2 htb
      have h22 : (2 : Nat) ^ 2 = 4 := by norm_num
      rw [h22] at hk
      omega
    show (blitPixel mask v p).b = p.b
    simp only [blitPixel]
    split_ifs <;> rfl

/-- Witness for c8_tint_cycle: a one-glyph tail starting at index 1 with
counter 1, plus the mask-1 tint holding the red channel. -/
theorem c8_tint_cycle_witness :
    compLoop 1 1 1 1 [(⟨⟨0, 1, 1, 1⟩, [9]⟩, ⟨1⟩)] ⟨[⟨0, 0, 0, 0⟩], 1, 0, []⟩ =
      specLoop 1 1 1 1 [(⟨⟨0, 1, 1, 1⟩, [9]⟩, ⟨1⟩)] ⟨[⟨0, 0, 0, 0⟩], 1, 0, []⟩ ∧
    channel 0 (blitPixel 1 9 ⟨3, 0, 0, 0⟩) = channel 0 ⟨3, 0, 0, 0⟩ :=
  ⟨(c8_tint_cycle 1 1 1 [(⟨⟨0, 1, 1, 1⟩, [9]⟩, ⟨1⟩)] 1
      ⟨[⟨0, 0, 0, 0⟩], 1, 0, []⟩ (by decide)).1,
   (c8_tint_cycle 1 1 1 [(⟨⟨0, 1, 1, 1⟩, [9]⟩, ⟨1⟩)] 1
      ⟨[⟨0, 0, 0, 0⟩], 1, 0, []⟩ (by decide)).2 0 (by decide) 1 9
      ⟨3, 0, 0, 0⟩ (by decide)⟩

/-- C6 counterexample: the claim says every channel of every destination
pixel accumulates by saturating addition, but the tint mask of the second
glyph (mask 1 mod 8) restores the red channel to its pre-accumulation
value: two fully overlapping glyphs with coverage 200 leave red at 200,
not at the saturated 255 the claim requires. -/
theorem c6_masked_channel_counterexample :
    runBufferAt (renderRun [(⟨(2 : Rat)/5⟩, some ⟨⟨0, 1, 1, 1⟩, [200]⟩),
        (⟨(3 : Rat)/5⟩, some ⟨⟨0, 1, 1, 1⟩, [200]⟩)]) 0 =
      some ⟨200, 255, 255, 255⟩ ∧
    saturating_add 200 200 = 255 := by
  constructor
  · with_unfolding_all rfl
  · rfl

/-- C6 amended: every channel whose tint-mask bit is clear (and always the
alpha channel) accumulates the source coverage into the destination value
by saturating addition; whenever the sum reaches beyond the maximum
channel value 255 the result is exactly 255, never a wrap-around. -/
theorem c6_saturating_accumulate (col v : Nat) (p : Pixel) :
    (col &&& 1 = 0 → (blitPixel col v p).r = saturating_add v p.r ∧
      (255 ≤ v + p.r → (blitPixel col v p).r = 255)) ∧
    (col &&& 2 = 0 → (blitPixel col v p).g = saturating_add v p.g ∧
      (255 ≤ v + p.g → (blitPixel col v p).g = 255)) ∧
    (col &&& 4 = 0 → (blitPixel col v p).b = saturating_add v p.b ∧
      (255 ≤ v + p.b → (blitPixel col v p).b = 255)) ∧
    ((blitPixel col v p).a = saturating_add v p.a ∧
      (255 ≤ v + p.a → (blitPixel col v p).a = 255)) := by
  simp only [blitPixel]
  split_ifs with h1 h2 h3 <;> simp_all [saturating_add] <;> omega

/-- Witness for c6_saturating_accumulate: with mask 0 both the red and
alpha channels saturate at 255. -/
theorem c6_saturating_accumulate_witness :
    (blitPixel 0 200 ⟨100, 0, 0, 100⟩).r = 255 ∧
    (blitPixel 0 200 ⟨100, 0, 0, 100⟩).a = 255 :=
  ⟨((c6_saturating_accumulate 0 200 ⟨100, 0, 0, 100⟩).1 (by decide)).2 (by decide),
   (c6_saturating_accumulate 0 200 ⟨100, 0, 0, 100⟩).2.2.2.2 (by decide)⟩

/-- C9: compositing is deterministic: two runs of the compositor on the
same ordered glyph sequence (each allocating its own zero-initialized
canvas inside renderRun) produce identical results; no hidden state
enters the model. -/
theorem c9_deterministic (pairs : List (Glyph × Option GlyphImage))
    (r1 r2 : Except String (Nat × Nat × Nat × CompState))
    (h1 : renderRun pairs = r1) (h2 : renderRun pairs = r2) : r1 = r2 := by
  rw [← h1, ← h2]

/-- Witness for c9_deterministic on the empty glyph sequence. -/
theorem c9_deterministic_witness :
    (Except.ok (0, 0, 0, (⟨[], 0, 0, []⟩ : CompState)) :
        Except String (Nat × Nat × Nat × CompState)) =
      Except.ok (0, 0, 0, (⟨[], 0, 0, []⟩ : CompState)) :=
  c9_deterministic [] _ _ (by with_unfolding_all rfl) (by with_unfolding_all rfl)

/-- C10: the alpha channel always receives the saturating accumulation of
the coverage value: the tint mask only ever restores channels 0-2, so a
pixel touched with nonzero coverage gets a nonzero alpha whatever the
glyph's position in the tint cycle. -/
theorem c10_alpha_always_accumulates (col v : Nat) (p : Pixel) :
    (blitPixel col v p).a = saturating_add v p.a ∧
    (0 < v → 0 < (blitPixel col v p).a) := by
  have ha : (blitPixel col v p).a = saturating_add v p.a := by
    simp only [blitPixel]
    split_ifs <;> rfl
  refine ⟨ha, fun hv => ?_⟩
  rw [ha]
  unfold saturating_add
  omega

/-- Witness for c10_alpha_always_accumulates. -/
theorem c10_alpha_always_accumulates_witness :
    (blitPixel 1 5 ⟨0, 0, 0, 0⟩).a = saturating_add 5 (Pixel.a ⟨0, 0, 0, 0⟩) ∧
    0 < (blitPixel 1 5 ⟨0, 0, 0, 0⟩).a :=
  ⟨(c10_alpha_always_accumulates 1 5 ⟨0, 0, 0, 0⟩).1,
   (c10_alpha_always_accumulates 1 5 ⟨0, 0, 0, 0⟩).2 (by decide)⟩
